import Mathlib

/-!
Shallow embedding of `src/video_share.py` (class `GitLFSVideoShare` and `main`).

Python strings are modelled as `List Char` (a sequence of Unicode code points);
paths are modelled as `List Char` with an explicit separator character `sep`
(`'/'` on POSIX, `'\\'` on Windows), so that the backslash-normalisation in the
URL builder is observable.  The character class test `str.isalnum` is modelled
by `Char.isAlphanum`; every property proved below depends on this class only
through membership tests, never on its exact extent.  `Path(p).name` (the final
path component extracted by the standard path library) is not modelled: the
functions below take the already-extracted final component `original` as input.
Side effects (directory creation, file writes, subprocess invocations, console
prints) are modelled as explicit effect traces (`Eff` lists); an exception
raised at some step truncates the trace to a prefix.
-/

namespace VideoShare

/-- The character filter of `share_video` line 106:
`c.isalnum() or c in (' ', '-', '_', '.')`. -/
def keepFileChar (c : Char) : Bool :=
  c.isAlphanum || c == ' ' || c == '-' || c == '_' || c == '.'

/-- The character filter of `create_player_page` line 50:
`c.isalnum() or c in (' ', '-', '_')` (no dot). -/
def keepTitleChar (c : Char) : Bool :=
  c.isAlphanum || c == ' ' || c == '-' || c == '_'

/-- Python `str.strip()`: drop whitespace from both ends. -/
def trimChars (l : List Char) : List Char :=
  ((l.dropWhile Char.isWhitespace).reverse.dropWhile Char.isWhitespace).reverse

/-- `share_video` line 106: `"".join(c for c in original_name if ...).strip()`. -/
def sanitizeFileName (s : List Char) : List Char :=
  trimChars (s.filter keepFileChar)

/-- `create_player_page` line 50: the title sanitizer (dot excluded). -/
def sanitizeTitle (s : List Char) : List Char :=
  trimChars (s.filter keepTitleChar)

/-- Index of the last `'.'` in a name, if any (Python `name.rfind`). -/
def lastDotIndex : List Char → Option Nat
  | [] => none
  | c :: cs =>
    match lastDotIndex cs with
    | some i => some (i + 1)
    | none => if c = '.' then some 0 else none

/-- `pathlib.PurePath.stem`: the name with its final suffix removed; a dot at
position 0 or at the very end does not start a suffix. -/
def pyStem (name : List Char) : List Char :=
  match lastDotIndex name with
  | none => name
  | some i => if 0 < i ∧ i < name.length - 1 then name.take i else name

/-- The hardcoded hosting origin of `share_video` line 124. -/
def repoUrl : List Char := "https://estellalin21.github.io/camforu".data

/-- One character of `relative_path.replace(chr(92), '/')` (line 126). -/
def bslashToSlash (c : Char) : Char :=
  if c == '\\' then '/' else c

/-- `share_video` line 126: `f"{repo_url}/{relative_path.replace(chr(92), '/')}"`. -/
def pageUrlOf (rel : List Char) : List Char :=
  repoUrl ++ '/' :: rel.map bslashToSlash

/-- `create_player_page` line 94: `f"{timestamp}_{safe_title}.html"`. -/
def pageNameOf (ts title : List Char) : List Char :=
  ts ++ '_' :: (sanitizeTitle title ++ ".html".data)

/-- `create_player_page` line 51: `f"../videos/{safe_title}"`, the value of the
`src` attribute of the page's single `<source>` element (line 87). -/
def sourceSrcOf (title : List Char) : List Char :=
  "../videos/".data ++ sanitizeTitle title

/-- `page_path.relative_to(self.repo_path)` for the generated page:
`pages<sep><page name>`. -/
def relPagePath (sep : Char) (name : List Char) : List Char :=
  "pages".data ++ sep :: name

/-- Observable outputs of `create_player_page` (lines 47-100): the generated
page file name and the `src` attribute of the `<source>` element embedded in
the HTML text.  The surrounding static HTML/CSS boilerplate carries no data
and is not modelled. -/
structure PageArtifact where
  pageName : List Char
  sourceSrc : List Char
  deriving DecidableEq

/-- `create_player_page` given the timestamp and the `title` argument. -/
def create_player_page (ts title : List Char) : PageArtifact :=
  { pageName := pageNameOf ts title, sourceSrc := sourceSrcOf title }

/-- `self.videos_dir = self.repo_path / 'videos'` (line 12). -/
def videosDirOf (root : List Char) (sep : Char) : List Char :=
  root ++ sep :: "videos".data

/-- `self.pages_dir = self.repo_path / 'pages'` (line 13). -/
def pagesDirOf (root : List Char) (sep : Char) : List Char :=
  root ++ sep :: "pages".data

/-- `self.repo_path / 'qrcodes'` (line 139). -/
def qrDirOf (root : List Char) (sep : Char) : List Char :=
  root ++ sep :: "qrcodes".data

/-- `target_path = self.videos_dir / safe_name` (line 107). -/
def targetPath (root : List Char) (sep : Char) (original : List Char) : List Char :=
  videosDirOf root sep ++ sep :: sanitizeFileName original

/-- The full path of the page generated by `share_video` line 115. -/
def pagePathOf (root : List Char) (sep : Char) (ts original : List Char) : List Char :=
  pagesDirOf root sep ++ sep :: (create_player_page ts (pyStem (sanitizeFileName original))).pageName

/-- `f"{Path(safe_name).stem}_qr.png"` (line 139). -/
def qrFileNameOf (safe_name : List Char) : List Char :=
  pyStem safe_name ++ "_qr.png".data

/-- `qr_path = self.repo_path / 'qrcodes' / f"{Path(safe_name).stem}_qr.png"`. -/
def qrPathOf (root : List Char) (sep : Char) (original : List Char) : List Char :=
  qrDirOf root sep ++ sep :: qrFileNameOf (sanitizeFileName original)

/-- A Python exception value (only its message is observable). -/
inductive PyErr where
  | err (msg : List Char)
  deriving DecidableEq

/-- Outcome of one `subprocess.Popen` + `communicate` (lines 30-37). -/
structure CmdResult where
  returncode : Int
  output : List Char
  error : List Char
  deriving DecidableEq

/-- `_run_command` (lines 27-45): a spawn failure or a non-zero exit status is
caught, printed, and turned into the empty string; a zero exit status yields
`output.strip()`.  The function never propagates an exception. -/
def run_command (res : Except PyErr CmdResult) : List Char :=
  match res with
  | Except.error _ => []
  | Except.ok r => if r.returncode = 0 then trimChars r.output else []

/-- The console line printed by `_run_command` on a non-zero exit status
(line 40 raises `命令失败: {error}`, line 44 prints `命令执行错误: {e}`). -/
def cmdFailPrint (r : CmdResult) : List Char :=
  "命令执行错误: 命令失败: ".data ++ r.error

/-- Filesystem / subprocess / console effects, in program order. -/
inductive Eff where
  | mkdirE (p : List Char)
  | chdirE (p : List Char)
  | copyE (src dst : List Char)
  | writeE (p : List Char)
  | gitE (args : List (List Char))
  | printE (msg : List Char)
  deriving DecidableEq

/-- Console effects of one `_run_command` call: nothing on success, one error
print on spawn failure or non-zero exit (lines 39-45). -/
def run_command_effects (res : Except PyErr CmdResult) : List Eff :=
  match res with
  | Except.error (PyErr.err m) => [Eff.printE ("命令执行错误: ".data ++ m)]
  | Except.ok r => if r.returncode = 0 then [] else [Eff.printE (cmdFailPrint r)]

/-- `['git', 'add', str(target_path)]` (line 119). -/
def gitAddVideoCmd (root : List Char) (sep : Char) (original : List Char) : List (List Char) :=
  ["git".data, "add".data, targetPath root sep original]

/-- `['git', 'add', str(page_path)]` (line 120). -/
def gitAddPageCmd (root : List Char) (sep : Char) (ts original : List Char) : List (List Char) :=
  ["git".data, "add".data, pagePathOf root sep ts original]

/-- `['git', 'commit', '-m', f'Add video: {safe_name}']` (line 121). -/
def gitCommitCmd (original : List Char) : List (List Char) :=
  ["git".data, "commit".data, "-m".data, "Add video: ".data ++ sanitizeFileName original]

/-- The result dictionary returned by `share_video` (lines 144-149). -/
structure ShareRecord where
  video_path : List Char
  page_path : List Char
  page_url : List Char
  qr_path : List Char
  deriving DecidableEq

/-- `share_video` (lines 102-152) as a function of the final path component of
its input, the timestamp, and the outcomes of the three git invocations.  The
git outcomes are consumed by `run_command` exactly as in the source and their
values are discarded (the source never inspects them). -/
def share_video (root : List Char) (sep : Char) (original ts : List Char)
    (g1 g2 g3 : Except PyErr CmdResult) : ShareRecord :=
  let safe_name := sanitizeFileName original
  let target := targetPath root sep original
  let page := create_player_page ts (pyStem safe_name)
  let page_path := pagesDirOf root sep ++ sep :: page.pageName
  let _o1 := run_command g1
  let _o2 := run_command g2
  let _o3 := run_command g3
  let page_url := pageUrlOf (relPagePath sep page.pageName)
  let qr_path := qrPathOf root sep original
  { video_path := target, page_path := page_path, page_url := page_url, qr_path := qr_path }

/-- The effect trace of `share_video` after the video copy has succeeded
(lines 113-142): page write, three git invocations (each followed by the
console effect of its outcome), qrcodes directory creation, QR image write. -/
def postCopyEffects (root : List Char) (sep : Char) (original ts : List Char)
    (g1 g2 g3 : Except PyErr CmdResult) : List Eff :=
  Eff.printE "创建播放页面...".data ::
  Eff.writeE (pagePathOf root sep ts original) ::
  Eff.printE "提交到Git...".data ::
  Eff.gitE (gitAddVideoCmd root sep original) ::
  (run_command_effects g1 ++
    Eff.gitE (gitAddPageCmd root sep ts original) ::
    (run_command_effects g2 ++
      Eff.gitE (gitCommitCmd original) ::
      (run_command_effects g3 ++
        [Eff.printE "生成二维码...".data,
         Eff.mkdirE (qrDirOf root sep),
         Eff.writeE (qrPathOf root sep original)])))

/-- The full effect trace of `share_video` (lines 102-152). -/
def shareEffects (root : List Char) (sep : Char) (videoPath original ts : List Char)
    (g1 g2 g3 : Except PyErr CmdResult) : List Eff :=
  Eff.printE "复制视频文件...".data ::
  Eff.copyE videoPath (targetPath root sep original) ::
  postCopyEffects root sep original ts g1 g2 g3

/-- Filesystem semantics of one effect: `open(..., 'w')`, `shutil.copy2` and
`mkdir` create (or overwrite) an entry at a path; subprocess invocations and
prints touch no managed file; no effect of the program removes an entry. -/
def applyEff (fs : List (List Char)) : Eff → List (List Char)
  | Eff.mkdirE p => p :: fs
  | Eff.copyE _ dst => dst :: fs
  | Eff.writeE p => p :: fs
  | _ => fs

/-- Run a trace of effects over a filesystem (a set of existing paths). -/
def runEffs (fs : List (List Char)) (l : List Eff) : List (List Char) :=
  l.foldl applyEff fs

/-- Effect trace of `setup_repository` (lines 16-21) on the success path:
create the two base directories, then change the working directory. -/
def setupEffects (root : List Char) (sep : Char) : List Eff :=
  [Eff.mkdirE (videosDirOf root sep),
   Eff.mkdirE (pagesDirOf root sep),
   Eff.chdirE root]

/-- Process outcome: normal termination, or `sys.exit(code)`. -/
inductive Outcome where
  | normal
  | fatal (code : Nat)
  deriving DecidableEq

/-- `setup_repository` (lines 16-25) as a function of the outcomes of the two
`mkdir` calls and the `os.chdir` call: any failure inside the `try` block is
caught and turned into `sys.exit(1)`. -/
def setup_repository (mkVideos mkPages ch : Except PyErr Unit) : Outcome :=
  match mkVideos with
  | Except.error _ => Outcome.fatal 1
  | Except.ok _ =>
    match mkPages with
    | Except.error _ => Outcome.fatal 1
    | Except.ok _ =>
      match ch with
      | Except.error _ => Outcome.fatal 1
      | Except.ok _ => Outcome.normal

/-- Process outcome of `main` (lines 154-184): a fatal exit can only come out
of `setup_repository`; a missing input file prints and returns normally, and
any exception from `share_video` is caught by the top-level handler, printed,
and the process returns normally. -/
def mainOutcome (mkV mkP ch : Except PyErr Unit) (inputExists : Bool)
    (share : Except PyErr ShareRecord) : Outcome :=
  match setup_repository mkV mkP ch with
  | Outcome.fatal c => Outcome.fatal c
  | Outcome.normal =>
    if inputExists then
      match share with
      | Except.error _ => Outcome.normal
      | Except.ok _ => Outcome.normal
    else Outcome.normal

/-- The error line printed by `main` when the input path does not exist
(line 168). -/
def notExistMsg : List Char := "错误：视频文件不存在！".data

/-- Effect trace of `main` (lines 154-184) when `setup_repository` succeeds:
banner print, the two base-directory creations and the chdir, then either the
full share trace or the missing-file error print. -/
def mainEffects (root : List Char) (sep : Char) (inputExists : Bool)
    (videoPath original ts : List Char) (g1 g2 g3 : Except PyErr CmdResult) : List Eff :=
  Eff.printE "=== GitHub LFS 视频分享工具 ===".data ::
  (setupEffects root sep ++
    (if inputExists then
      Eff.printE "处理中...".data ::
        shareEffects root sep videoPath original ts g1 g2 g3 ++
        [Eff.printE "=== 分享成功！===".data]
    else [Eff.printE notExistMsg]))

/-- Effects that mutate the filesystem or invoke the version-control tool. -/
def isMutationOrGit : Eff → Bool
  | Eff.mkdirE _ => true
  | Eff.copyE _ _ => true
  | Eff.writeE _ => true
  | Eff.gitE _ => true
  | _ => false

/-- Path separator characters (and hence path-structure-changing characters)
for the path-join model below. -/
def isSepChar (c : Char) : Bool :=
  c == '/' || c == '\\'

/-- Joining one separator-free component onto a directory (a list of
components) and normalising: `'.'` stays in place, `'..'` moves to the
parent, anything else names a child. -/
def resolveChild (dir : List (List Char)) (name : List Char) : List (List Char) :=
  if name = ['.'] then dir
  else if name = ['.', '.'] then dir.dropLast
  else dir ++ [name]

/-- Characters produced by `strftime('%Y%m%d_%H%M%S')` (line 93). -/
def validTimestamp (ts : List Char) : Bool :=
  ts.all (fun c => c.isDigit || c == '_')

/-- No-whitespace-at-either-end check (the postcondition of `str.strip`). -/
def noEdgeWhitespace (l : List Char) : Bool :=
  (match l.head? with
   | some c => ! c.isWhitespace
   | none => true) &&
  (match l.getLast? with
   | some c => ! c.isWhitespace
   | none => true)

/-! ### Helper lemmas about `dropWhile` and `trimChars` -/

theorem mem_of_mem_dropWhile {α : Type} (p : α → Bool) (l : List α) (a : α)
    (h : a ∈ l.dropWhile p) : a ∈ l := by
  induction l with
  | nil => simp [List.dropWhile] at h
  | cons c t ih =>
    rw [List.dropWhile_cons] at h
    by_cases hc : p c = true
    · rw [if_pos hc] at h
      exact List.mem_cons_of_mem c (ih h)
    · rwa [if_neg hc] at h

theorem head_dropWhile_false {α : Type} (p : α → Bool) (l : List α) {a : α}
    (h : (l.dropWhile p).head? = some a) : p a = false := by
  induction l with
  | nil => simp [List.dropWhile] at h
  | cons c t ih =>
    rw [List.dropWhile_cons] at h
    by_cases hc : p c = true
    · rw [if_pos hc] at h
      exact ih h
    · rw [if_neg hc] at h
      simp only [List.head?] at h
      cases h
      simpa using hc

theorem dropWhile_dropWhile {α : Type} (p : α → Bool) (l : List α) :
    (l.dropWhile p).dropWhile p = l.dropWhile p := by
  induction l with
  | nil => rfl
  | cons c t ih =>
    rw [List.dropWhile_cons]
    by_cases hc : p c = true
    · rw [if_pos hc]
      exact ih
    · rw [if_neg hc, List.dropWhile_cons, if_neg hc]

theorem exists_dropWhile_front {α : Type} (p : α → Bool) (l : List α) :
    ∃ t, t ++ l.dropWhile p = l := by
  induction l with
  | nil => exact ⟨[], rfl⟩
  | cons c t ih =>
    rw [List.dropWhile_cons]
    by_cases hc : p c = true
    · obtain ⟨u, hu⟩ := ih
      exact ⟨c :: u, by rw [if_pos hc, List.cons_append, hu]⟩
    · exact ⟨[], by rw [if_neg hc, List.nil_append]⟩

theorem dropWhile_eq_self_of_head {α : Type} (p : α → Bool) (l : List α)
    (h : ∀ a, l.head? = some a → p a = false) : l.dropWhile p = l := by
  cases l with
  | nil => rfl
  | cons c t =>
    rw [List.dropWhile_cons, if_neg]
    simp [h c rfl]

theorem head_append_of_ne_nil {α : Type} (x y : List α) (h : x ≠ []) :
    (x ++ y).head? = x.head? := by
  cases x with
  | nil => exact absurd rfl h
  | cons c t => rfl

theorem trim_head_false (l : List Char) {a : Char}
    (h : (trimChars l).head? = some a) : a.isWhitespace = false := by
  have hne : trimChars l ≠ [] := by
    intro hnil
    rw [hnil] at h
    exact Option.noConfusion h
  obtain ⟨t, ht⟩ :=
    exists_dropWhile_front Char.isWhitespace (l.dropWhile Char.isWhitespace).reverse
  have hA : l.dropWhile Char.isWhitespace = trimChars l ++ t.reverse := by
    have := congrArg List.reverse ht
    rw [List.reverse_append, List.reverse_reverse] at this
    exact this.symm
  have hhead : (l.dropWhile Char.isWhitespace).head? = some a := by
    rw [hA, head_append_of_ne_nil _ _ hne, h]
  exact head_dropWhile_false Char.isWhitespace l hhead

theorem trim_getLast_false (l : List Char) {a : Char}
    (h : (trimChars l).getLast? = some a) : a.isWhitespace = false := by
  rw [trimChars, List.getLast?_reverse] at h
  exact head_dropWhile_false Char.isWhitespace _ h

theorem dropWhile_trimChars (l : List Char) :
    (trimChars l).dropWhile Char.isWhitespace = trimChars l := by
  apply dropWhile_eq_self_of_head
  intro a ha
  exact trim_head_false l ha

theorem trimChars_idem (l : List Char) : trimChars (trimChars l) = trimChars l := by
  show (((trimChars l).dropWhile Char.isWhitespace).reverse.dropWhile
      Char.isWhitespace).reverse = trimChars l
  rw [dropWhile_trimChars]
  show (((((l.dropWhile Char.isWhitespace).reverse.dropWhile
      Char.isWhitespace).reverse).reverse).dropWhile Char.isWhitespace).reverse = trimChars l
  rw [List.reverse_reverse, dropWhile_dropWhile]
  rfl

theorem mem_of_mem_trimChars (l : List Char) (a : Char) (h : a ∈ trimChars l) : a ∈ l := by
  rw [trimChars, List.mem_reverse] at h
  have h2 := mem_of_mem_dropWhile _ _ _ h
  rw [List.mem_reverse] at h2
  exact mem_of_mem_dropWhile _ _ _ h2

theorem sanitize_generic_idem (k : Char → Bool) (s : List Char) :
    trimChars ((trimChars (s.filter k)).filter k) = trimChars (s.filter k) := by
  have hfix : (trimChars (s.filter k)).filter k = trimChars (s.filter k) := by
    apply List.filter_eq_self.mpr
    intro a ha
    exact (List.mem_filter.mp (mem_of_mem_trimChars _ _ ha)).2
  rw [hfix, trimChars_idem]

theorem mem_sanitizeFileName_keep (s : List Char) (a : Char)
    (h : a ∈ sanitizeFileName s) : keepFileChar a = true := by
  rw [sanitizeFileName] at h
  exact (List.mem_filter.mp (mem_of_mem_trimChars _ _ h)).2

theorem mem_sanitizeTitle_keep (s : List Char) (a : Char)
    (h : a ∈ sanitizeTitle s) : keepTitleChar a = true := by
  rw [sanitizeTitle] at h
  exact (List.mem_filter.mp (mem_of_mem_trimChars _ _ h)).2

theorem noEdgeWhitespace_trimChars (l : List Char) :
    noEdgeWhitespace (trimChars l) = true := by
  rw [noEdgeWhitespace, Bool.and_eq_true]
  constructor
  · cases hh : (trimChars l).head? with
    | none => rfl
    | some c => simp [trim_head_false l hh]
  · cases hh : (trimChars l).getLast? with
    | none => rfl
    | some c => simp [trim_getLast_false l hh]

theorem map_bslash_id (l : List Char) (h : ∀ c ∈ l, c ≠ '\\') :
    l.map bslashToSlash = l := by
  induction l with
  | nil => rfl
  | cons c t ih =>
    have hc : c ≠ '\\' := h c (List.mem_cons_self c t)
    rw [List.map_cons, ih (fun d hd => h d (List.mem_cons_of_mem c hd))]
    simp [bslashToSlash, hc]

theorem mem_runEffs_of_mem (l : List Eff) (fs : List (List Char)) (v : List Char)
    (hv : v ∈ fs) : v ∈ runEffs fs l := by
  induction l generalizing fs with
  | nil => exact hv
  | cons e t ih =>
    rw [runEffs, List.foldl_cons]
    apply ih
    cases e with
    | mkdirE p => exact List.mem_cons_of_mem p hv
    | copyE src dst => exact List.mem_cons_of_mem dst hv
    | writeE p => exact List.mem_cons_of_mem p hv
    | chdirE p => exact hv
    | gitE args => exact hv
    | printE m => exact hv

/-! ### Claim theorems -/

/-- C3: for every input string, the file-name sanitizer returns only
alphanumeric characters, spaces, hyphens, underscores and dots, with no
whitespace at either end; the title sanitizer returns the same class with
dots additionally excluded, also with no whitespace at either end.  Both are
(pure) functions of their input by construction. -/
theorem c3_sanitizer_charset_and_trim (s : List Char) :
    (sanitizeFileName s).all keepFileChar = true ∧
    noEdgeWhitespace (sanitizeFileName s) = true ∧
    (sanitizeTitle s).all (fun c => keepTitleChar c && !(c == '.')) = true ∧
    noEdgeWhitespace (sanitizeTitle s) = true := by
  refine ⟨?_, ?_, ?_, ?_⟩
  · apply List.all_eq_true.mpr
    intro c hc
    exact mem_sanitizeFileName_keep s c hc
  · rw [sanitizeFileName]
    exact noEdgeWhitespace_trimChars _
  · apply List.all_eq_true.mpr
    intro c hc
    have hk := mem_sanitizeTitle_keep s c hc
    rw [Bool.and_eq_true]
    refine ⟨hk, ?_⟩
    by_cases hd : c = '.'
    · subst hd
      exact absurd hk (by decide)
    · simp [hd]
  · rw [sanitizeTitle]
    exact noEdgeWhitespace_trimChars _

/-- C10: both sanitizers are idempotent: re-sanitizing an already sanitized
string returns it unchanged. -/
theorem c10_sanitizers_idempotent (s : List Char) :
    sanitizeFileName (sanitizeFileName s) = sanitizeFileName s ∧
    sanitizeTitle (sanitizeTitle s) = sanitizeTitle s :=
  ⟨sanitize_generic_idem keepFileChar s, sanitize_generic_idem keepTitleChar s⟩

/-- C5 (counterexample): the input `".."` sanitizes to `".."` unchanged
(dots are in the kept character class), and joining `".."` to the managed
videos directory resolves to its parent — a location outside the videos
directory.  This refutes the claim that the sanitized name can never name a
location outside the videos directory. -/
theorem c5_dotdot_escapes_videos_dir :
    sanitizeFileName "..".data = ['.', '.'] ∧
    ¬ (["repo".data, "videos".data] <+:
        resolveChild ["repo".data, "videos".data] (sanitizeFileName "..".data)) := by
  decide

/-- C5 (amended): the sanitized name never contains a path separator
character, so joined to the videos directory it resolves to that directory
itself or to a direct child of it — except for the single degenerate output
`".."`, which resolves to the parent directory. -/
theorem c5_sanitized_name_stays_in_videos_dir (s : List Char) (d : List (List Char))
    (h : sanitizeFileName s ≠ ['.', '.']) :
    (sanitizeFileName s).all (fun c => ! isSepChar c) = true ∧
    d <+: resolveChild d (sanitizeFileName s) := by
  constructor
  · apply List.all_eq_true.mpr
    intro c hc
    have hk := mem_sanitizeFileName_keep s c hc
    by_cases h1 : c = '/'
    · subst h1
      exact absurd hk (by decide)
    · by_cases h2 : c = '\\'
      · subst h2
        exact absurd hk (by decide)
      · simp [isSepChar, h1, h2]
  · rw [resolveChild]
    by_cases hd : sanitizeFileName s = ['.']
    · rw [if_pos hd]
    · rw [if_neg hd, if_neg h]
      exact List.prefix_append d _

/-- C5 witness: a benign concrete input. -/
theorem c5_witness :
    (sanitizeFileName "My Clip.mov".data).all (fun c => ! isSepChar c) = true ∧
    ["repo".data, "videos".data] <+:
      resolveChild ["repo".data, "videos".data] (sanitizeFileName "My Clip.mov".data) :=
  c5_sanitized_name_stays_in_videos_dir "My Clip.mov".data
    ["repo".data, "videos".data] (by decide)

/-- C1: evaluating the page generation of `share_video` at the spec's own
example input `"My Clip.mov"` shows the `<source>` `src` attribute is
`../videos/My Clip` — the title-sanitized stem — and not
`../videos/My Clip.mov`, the sanitized name of the copied file.  The code
ignores the `video_path` argument of `create_player_page` and rebuilds the
reference from the extension-stripped title, so the emitted page references
a file that was never created. -/
theorem c1_source_src_drops_extension :
    (create_player_page "20240101_120000".data
        (pyStem (sanitizeFileName "My Clip.mov".data))).sourceSrc =
      "../videos/My Clip".data ∧
    sanitizeFileName "My Clip.mov".data = "My Clip.mov".data ∧
    (create_player_page "20240101_120000".data
        (pyStem (sanitizeFileName "My Clip.mov".data))).sourceSrc ≠
      "../videos/".data ++ sanitizeFileName "My Clip.mov".data := by
  decide

/-- C4: for a timestamp produced by `strftime('%Y%m%d_%H%M%S')` and either
path separator ('/' on POSIX, '\' on Windows), the computed page URL equals
the fixed base origin, '/', and `pages/<generated page file name>`, with any
backslash separator normalized to a forward slash. -/
theorem c4_page_url_shape (ts title : List Char) (sep : Char)
    (hts : validTimestamp ts = true) (hsep : sep = '/' ∨ sep = '\\') :
    pageUrlOf (relPagePath sep (pageNameOf ts title)) =
      repoUrl ++ "/pages/".data ++ pageNameOf ts title := by
  have hname : ∀ c ∈ pageNameOf ts title, c ≠ '\\' := by
    intro c hc
    rw [pageNameOf] at hc
    rcases List.mem_append.mp hc with h1 | h2
    · have hd := List.all_eq_true.mp hts c h1
      intro hbs
      subst hbs
      exact absurd hd (by decide)
    · rcases List.mem_cons.mp h2 with h3 | h4
      · subst h3
        decide
      · rcases List.mem_append.mp h4 with h5 | h6
        · have hk := mem_sanitizeTitle_keep title c h5
          intro hbs
          subst hbs
          exact absurd hk (by decide)
        · intro hbs
          subst hbs
          simp at h6
  have hsep2 : bslashToSlash sep = '/' := by
    rcases hsep with h | h <;> subst h <;> decide
  have hm1 : List.map bslashToSlash "pages".data = "pages".data := by decide
  have hm2 : List.map bslashToSlash (sep :: pageNameOf ts title) =
      '/' :: pageNameOf ts title := by
    rw [List.map_cons, hsep2, map_bslash_id _ hname]
  have hmap : (relPagePath sep (pageNameOf ts title)).map bslashToSlash =
      "pages".data ++ '/' :: pageNameOf ts title := by
    rw [relPagePath, List.map_append, hm1, hm2]
  have hsplit : ("/pages/".data : List Char) = '/' :: "pages".data ++ ['/'] := by decide
  rw [pageUrlOf, hmap, hsplit]
  simp

/-- C4 witness: the spec's example timestamp and title on POSIX. -/
theorem c4_witness :
    validTimestamp "20240101_120000".data = true ∧
    pageUrlOf (relPagePath '/' (pageNameOf "20240101_120000".data "My Clip".data)) =
      repoUrl ++ "/pages/".data ++ pageNameOf "20240101_120000".data "My Clip".data :=
  ⟨by decide,
    c4_page_url_shape "20240101_120000".data "My Clip".data '/' (by decide) (Or.inl rfl)⟩

/-- C2: a non-zero exit status (or a spawn failure) of a git invocation is a
soft failure: `_run_command` returns the empty string after printing the
error, the failure is visible in the share trace only as a console print, the
later git invocations and the QR write still appear in the trace, and the
returned result record does not depend on the git outcomes at all. -/
theorem c2_git_failures_are_soft (r : CmdResult) (e : PyErr)
    (root videoPath original ts : List Char) (sep : Char)
    (g1 g2 g3 g1' g2' g3' : Except PyErr CmdResult)
    (h : r.returncode ≠ 0) :
    run_command (Except.ok r) = [] ∧
    run_command (Except.error e) = [] ∧
    share_video root sep original ts g1 g2 g3 =
      share_video root sep original ts g1' g2' g3' ∧
    Eff.printE (cmdFailPrint r) ∈
      shareEffects root sep videoPath original ts (Except.ok r) g2 g3 ∧
    Eff.gitE (gitCommitCmd original) ∈
      shareEffects root sep videoPath original ts (Except.ok r) g2 g3 ∧
    Eff.writeE (qrPathOf root sep original) ∈
      shareEffects root sep videoPath original ts (Except.ok r) g2 g3 := by
  refine ⟨?_, rfl, rfl, ?_, ?_, ?_⟩
  · rw [run_command, if_neg h]
  all_goals
    simp [shareEffects, postCopyEffects, run_command_effects, h]

/-- C2 witness: a concrete failed invocation (exit status 1) inside a
concrete share operation. -/
theorem c2_witness :
    run_command (Except.ok ⟨1, [], "boom".data⟩) = [] ∧
    run_command (Except.error (PyErr.err [])) = [] ∧
    share_video "/repo".data '/' "a.mp4".data "20240101_120000".data
        (Except.ok ⟨1, [], "boom".data⟩) (Except.ok ⟨0, [], []⟩) (Except.ok ⟨0, [], []⟩) =
      share_video "/repo".data '/' "a.mp4".data "20240101_120000".data
        (Except.ok ⟨0, [], []⟩) (Except.ok ⟨0, [], []⟩) (Except.ok ⟨0, [], []⟩) ∧
    Eff.printE (cmdFailPrint ⟨1, [], "boom".data⟩) ∈
      shareEffects "/repo".data '/' "/tmp/a.mp4".data "a.mp4".data "20240101_120000".data
        (Except.ok ⟨1, [], "boom".data⟩) (Except.ok ⟨0, [], []⟩) (Except.ok ⟨0, [], []⟩) ∧
    Eff.gitE (gitCommitCmd "a.mp4".data) ∈
      shareEffects "/repo".data '/' "/tmp/a.mp4".data "a.mp4".data "20240101_120000".data
        (Except.ok ⟨1, [], "boom".data⟩) (Except.ok ⟨0, [], []⟩) (Except.ok ⟨0, [], []⟩) ∧
    Eff.writeE (qrPathOf "/repo".data '/' "a.mp4".data) ∈
      shareEffects "/repo".data '/' "/tmp/a.mp4".data "a.mp4".data "20240101_120000".data
        (Except.ok ⟨1, [], "boom".data⟩) (Except.ok ⟨0, [], []⟩) (Except.ok ⟨0, [], []⟩) :=
  c2_git_failures_are_soft ⟨1, [], "boom".data⟩ (PyErr.err [])
    "/repo".data "/tmp/a.mp4".data "a.mp4".data "20240101_120000".data '/'
    (Except.ok ⟨0, [], []⟩) (Except.ok ⟨0, [], []⟩) (Except.ok ⟨0, [], []⟩)
    (Except.ok ⟨0, [], []⟩) (Except.ok ⟨0, [], []⟩) (Except.ok ⟨0, [], []⟩)
    (by decide)

/-- C6 (counterexample): for the input name `a.b.mov` the QR file name
produced by the code is `a.b_qr.png` (the raw `stem` of the sanitized file
name), not `ab_qr.png` (the title-sanitized stem with dots removed) as the
claim requires. -/
theorem c6_qr_name_is_raw_stem :
    qrFileNameOf (sanitizeFileName "a.b.mov".data) = "a.b_qr.png".data ∧
    sanitizeTitle (pyStem (sanitizeFileName "a.b.mov".data)) ++ "_qr.png".data =
      "ab_qr.png".data ∧
    qrFileNameOf (sanitizeFileName "a.b.mov".data) ≠
      sanitizeTitle (pyStem (sanitizeFileName "a.b.mov".data)) ++ "_qr.png".data := by
  decide

/-- C6 (amended): the QR image path is
`qrcodes/<stem of the sanitized file name>_qr.png` relative to the repository
root — the stem is not additionally title-sanitized — and the share trace
ends with the creation of the qrcodes directory immediately followed by the
QR image write. -/
theorem c6_qr_path_and_dir_creation (root : List Char) (sep : Char)
    (videoPath original ts : List Char) (g1 g2 g3 : Except PyErr CmdResult) :
    qrPathOf root sep original =
      (root ++ sep :: "qrcodes".data) ++
        sep :: (pyStem (sanitizeFileName original) ++ "_qr.png".data) ∧
    [Eff.mkdirE (qrDirOf root sep), Eff.writeE (qrPathOf root sep original)] <:+
      shareEffects root sep videoPath original ts g1 g2 g3 := by
  constructor
  · rfl
  · refine ⟨ Eff.printE "复制视频文件...".data ::
      Eff.copyE videoPath (targetPath root sep original) ::
      Eff.printE "创建播放页面...".data ::
      Eff.writeE (pagePathOf root sep ts original) ::
      Eff.printE "提交到Git...".data ::
      Eff.gitE (gitAddVideoCmd root sep original) ::
      (run_command_effects g1 ++
        Eff.gitE (gitAddPageCmd root sep ts original) ::
        (run_command_effects g2 ++
          Eff.gitE (gitCommitCmd original) ::
          (run_command_effects g3 ++ [Eff.printE "生成二维码...".data]))), ?_⟩
    simp [shareEffects, postCopyEffects]

/-- C7: membership in the modelled filesystem is preserved by every effect
the program performs after the video copy — no step deletes a path — so the
copied video remains present under every prefix of the post-copy trace (an
exception at any step truncates the trace to such a prefix). -/
theorem c7_copy_survives_later_failures (fs : List (List Char)) (v : List Char)
    (pre : List Eff) (root : List Char) (sep : Char) (original ts : List Char)
    (g1 g2 g3 : Except PyErr CmdResult)
    (_hpre : pre <+: postCopyEffects root sep original ts g1 g2 g3)
    (hv : v ∈ fs) : v ∈ runEffs fs pre :=
  mem_runEffs_of_mem pre fs v hv

/-- C7 witness: the copied video survives a trace cut off after the page
write (the first four post-copy effects). -/
theorem c7_witness :
    targetPath "/repo".data '/' "a.mp4".data ∈
      runEffs [targetPath "/repo".data '/' "a.mp4".data]
        ((postCopyEffects "/repo".data '/' "a.mp4".data "20240101_120000".data
          (Except.ok ⟨0, [], []⟩) (Except.ok ⟨0, [], []⟩) (Except.ok ⟨0, [], []⟩)).take 4) :=
  c7_copy_survives_later_failures
    [targetPath "/repo".data '/' "a.mp4".data]
    (targetPath "/repo".data '/' "a.mp4".data)
    ((postCopyEffects "/repo".data '/' "a.mp4".data "20240101_120000".data
      (Except.ok ⟨0, [], []⟩) (Except.ok ⟨0, [], []⟩) (Except.ok ⟨0, [], []⟩)).take 4)
    "/repo".data '/' "a.mp4".data "20240101_120000".data
    (Except.ok ⟨0, [], []⟩) (Except.ok ⟨0, [], []⟩) (Except.ok ⟨0, [], []⟩)
    (by exact List.take_prefix 4 _)
    (List.mem_singleton.mpr rfl)

/-- C8: the process exits fatally (code 1) exactly when one of the three
initialization steps inside `setup_repository`'s `try` block — the two base
directory creations or the working-directory change — raises; in particular
a failure of either `mkdir` terminates the process, and no other path of
`main` produces a fatal exit. -/
theorem c8_fatal_only_from_init (mkV mkP ch : Except PyErr Unit) (ex : Bool)
    (sh : Except PyErr ShareRecord) (c : Nat) :
    mainOutcome mkV mkP ch ex sh = Outcome.fatal c ↔
      (c = 1 ∧ ((∃ e, mkV = Except.error e) ∨ (∃ e, mkP = Except.error e) ∨
        (∃ e, ch = Except.error e))) := by
  rcases mkV with eV | uV <;> rcases mkP with eP | uP <;> rcases ch with eC | uC <;>
    cases ex <;> rcases sh with eS | rS <;>
    simp [mainOutcome, setup_repository, eq_comm]

/-- C9: when the input video path does not exist, the only filesystem
mutations in the whole `main` trace are the creations of the two base
directories, no git command appears in the trace, and the error message is
printed. -/
theorem c9_missing_input_no_mutation (root : List Char) (sep : Char)
    (videoPath original ts : List Char) (g1 g2 g3 : Except PyErr CmdResult) :
    (mainEffects root sep false videoPath original ts g1 g2 g3).filter isMutationOrGit =
      [Eff.mkdirE (videosDirOf root sep), Eff.mkdirE (pagesDirOf root sep)] ∧
    Eff.printE notExistMsg ∈ mainEffects root sep false videoPath original ts g1 g2 g3 := by
  constructor
  · simp [mainEffects, setupEffects, isMutationOrGit, List.filter]
  · simp [mainEffects, setupEffects]

end VideoShare
